import Mathlib

/-!
# Shallow embedding of the kube-bind-provider correlation engine

This file embeds, in Lean, the correlation and derived-status logic of the
portal (binding-requests, cluster-bindings and bindings components) and
proves or refutes the specified properties.

Modelling conventions:
* A JavaScript `Map<string, string>` (and a secret's `data` object) is an
  insertion-ordered association list `List (String × String)`.
* JavaScript string truthiness (`if (s)`) is modelled by comparison with
  the empty string; absence (`undefined`) is `Option.none`.
* `atob` / `btoa` are modelled by an executable base64 codec over the
  code points of the string (Latin-1 view, as in the platform functions);
  an `atob` exception is `Option.none`.
* `JSON.parse(content).kubeconfig` is modelled by an executable parser
  for the flat JSON object-of-strings fragment that binding-response
  payloads use; parse failure or an absent field is `Option.none`.
* The regex `/namespace:\s*([^\s\n]+)/` is modelled by an executable
  scanner over the character list, with `\s` taken as its ASCII members.
-/

namespace KubeBind

/-- Model of an insertion-ordered string map (`Map<string,string>` or a
secret `data` object): lookup of the first entry with the given key. -/
def mapGet (m : List (String × String)) (k : String) : Option String :=
  (m.find? (fun p => p.1 == k)).map (fun p => p.2)

/-- `Map.has` / `key in data`. -/
def mapHas (m : List (String × String)) (k : String) : Bool :=
  (m.find? (fun p => p.1 == k)).isSome

/-- `Map.set(k, v)`: updates the entry in place if the key is present
(keeping insertion order), otherwise appends a new entry. This is the
cache write performed by `parseBindingTargetNamespaces`
(`currentMap.set(bindingKey, targetNamespace)`). -/
def mapSet (m : List (String × String)) (k v : String) : List (String × String) :=
  if (m.find? (fun p => p.1 == k)).isSome then
    m.map (fun p => if p.1 == k then (k, v) else p)
  else
    m ++ [(k, v)]

/-- `SecretKeyRef` from `bindings.service.ts`. -/
structure SecretKeyRef where
  name : String
  key : String
deriving DecidableEq

/-- A status condition (`{type, status, ...}`); only the fields the
health projections read. -/
structure Condition where
  type : String
  status : String
deriving DecidableEq

/-- Object metadata; `ns` stands for the source's `namespace` field
(a keyword in Lean), `none` being an absent field. -/
structure ObjectMeta where
  name : String
  ns : Option String
deriving DecidableEq

/-- `ClusterBinding.status` fields read by the health projections. -/
structure ClusterBindingStatus where
  lastHeartbeatTime : Option String
  conditions : Option (List Condition)
deriving DecidableEq

/-- `ClusterBinding` from `bindings.service.ts` (fields the engine reads). -/
structure ClusterBinding where
  metadata : ObjectMeta
  status : Option ClusterBindingStatus
deriving DecidableEq

/-- `BindableResourcesRequest.status` fields read by the resolver. -/
structure RequestStatus where
  phase : Option String
  kubeconfigSecretRef : Option SecretKeyRef
deriving DecidableEq

/-- `BindableResourcesRequest` from `bindings.service.ts` (fields the
engine reads). -/
structure BindableResourcesRequest where
  metadata : ObjectMeta
  status : Option RequestStatus
deriving DecidableEq

/-- `cb.status?.conditions?.find(c => c.type === t)`. -/
def findCondition (cb : ClusterBinding) (t : String) : Option Condition :=
  match cb.status with
  | none => none
  | some st =>
    match st.conditions with
    | none => none
    | some cs => cs.find? (fun c => c.type == t)

/-- Truthiness of `cb.status?.lastHeartbeatTime` (absent or empty is falsy). -/
def hasHeartbeat (cb : ClusterBinding) : Bool :=
  match cb.status with
  | none => false
  | some st =>
    match st.lastHeartbeatTime with
    | none => false
    | some s => !(s == "")

namespace BindingsView

/-- `getHealthStatus` of `bindings.component.ts`. -/
def getHealthStatus (cb : ClusterBinding) : String :=
  match findCondition cb "Ready" with
  | some c => if c.status == "True" then "Ready" else "Not Ready"
  | none =>
    match findCondition cb "Healthy" with
    | some c => if c.status == "True" then "Healthy" else "Unhealthy"
    | none => if hasHeartbeat cb then "Connected" else "Unknown"

/-- `getHealthClass` of `bindings.component.ts`. -/
def getHealthClass (cb : ClusterBinding) : String :=
  match findCondition cb "Ready" with
  | some c => if c.status == "True" then "success" else "error"
  | none =>
    match findCondition cb "Healthy" with
    | some c => if c.status == "True" then "success" else "error"
    | none => if hasHeartbeat cb then "success" else "pending"

/-- `getHealthIcon` of `bindings.component.ts`. -/
def getHealthIcon (cb : ClusterBinding) : String :=
  match findCondition cb "Ready" with
  | some c => if c.status == "True" then "connected" else "disconnected"
  | none =>
    match findCondition cb "Healthy" with
    | some c => if c.status == "True" then "connected" else "disconnected"
    | none => if hasHeartbeat cb then "connected" else "hint"

end BindingsView

namespace ClusterBindingsView

/-- `getHealthStatus` of the cluster-bindings component. -/
def getHealthStatus (cb : ClusterBinding) : String :=
  match findCondition cb "Ready" with
  | some c => if c.status == "True" then "Ready" else "Not Ready"
  | none =>
    match findCondition cb "Healthy" with
    | some c => if c.status == "True" then "Healthy" else "Unhealthy"
    | none => if hasHeartbeat cb then "Connected" else "Unknown"

/-- `getHealthClass` of the cluster-bindings component. -/
def getHealthClass (cb : ClusterBinding) : String :=
  match findCondition cb "Ready" with
  | some c => if c.status == "True" then "success" else "error"
  | none =>
    match findCondition cb "Healthy" with
    | some c => if c.status == "True" then "success" else "error"
    | none => if hasHeartbeat cb then "success" else "pending"

/-- `getHealthIcon` of the cluster-bindings component. -/
def getHealthIcon (cb : ClusterBinding) : String :=
  match findCondition cb "Ready" with
  | some c => if c.status == "True" then "connected" else "disconnected"
  | none =>
    match findCondition cb "Healthy" with
    | some c => if c.status == "True" then "connected" else "disconnected"
    | none => if hasHeartbeat cb then "connected" else "hint"

end ClusterBindingsView

namespace BindingRequestsView

/-- `request.metadata.namespace || 'default'`. -/
def requestNamespace (request : BindableResourcesRequest) : String :=
  match request.metadata.ns with
  | some s => if s == "" then "default" else s
  | none => "default"

/-- The composite cache key `` `${namespace}/${name}` ``. -/
def requestBindingKey (request : BindableResourcesRequest) : String :=
  requestNamespace request ++ "/" ++ request.metadata.name

/-- `getLinkedClusterBinding` of `binding-requests.component.ts`: the
component state (`bindingTargetNamespaces` cache and `clusterBindings`
list) is passed explicitly. A falsy cached value (absent or `""`) falls
through to the same-namespace fallback. -/
def getLinkedClusterBinding (request : BindableResourcesRequest)
    (cache : List (String × String)) (clusterBindings : List ClusterBinding) :
    Option ClusterBinding :=
  let requestNs := requestNamespace request
  let target := (mapGet cache (requestBindingKey request)).getD ""
  if target == "" then
    clusterBindings.find? (fun cb => cb.metadata.ns == some requestNs)
  else
    clusterBindings.find? (fun cb => cb.metadata.ns == some target)

/-- The per-binding branch of `getLinkedBindingStatus` (the code after
the `if (!cb) return 'Unknown'` guard): note there is no `Healthy` tier. -/
def linkedStatusOfCB (cb : ClusterBinding) : String :=
  match findCondition cb "Ready" with
  | some c => if c.status == "True" then "Ready" else "Not Ready"
  | none => if hasHeartbeat cb then "Connected" else "Unknown"

/-- The per-binding branch of `getLinkedBindingClass`. -/
def linkedClassOfCB (cb : ClusterBinding) : String :=
  match findCondition cb "Ready" with
  | some c => if c.status == "True" then "success" else "error"
  | none => if hasHeartbeat cb then "success" else "pending"

/-- The per-binding branch of `getLinkedBindingIcon`. -/
def linkedIconOfCB (cb : ClusterBinding) : String :=
  match findCondition cb "Ready" with
  | some c => if c.status == "True" then "connected" else "disconnected"
  | none => if hasHeartbeat cb then "connected" else "hint"

/-- `getLinkedBindingStatus` of `binding-requests.component.ts`. -/
def getLinkedBindingStatus (request : BindableResourcesRequest)
    (cache : List (String × String)) (clusterBindings : List ClusterBinding) : String :=
  match getLinkedClusterBinding request cache clusterBindings with
  | none => "Unknown"
  | some cb => linkedStatusOfCB cb

/-- `getLinkedBindingClass` of `binding-requests.component.ts`. -/
def getLinkedBindingClass (request : BindableResourcesRequest)
    (cache : List (String × String)) (clusterBindings : List ClusterBinding) : String :=
  match getLinkedClusterBinding request cache clusterBindings with
  | none => "pending"
  | some cb => linkedClassOfCB cb

/-- `getLinkedBindingIcon` of `binding-requests.component.ts`. -/
def getLinkedBindingIcon (request : BindableResourcesRequest)
    (cache : List (String × String)) (clusterBindings : List ClusterBinding) : String :=
  match getLinkedClusterBinding request cache clusterBindings with
  | none => "hint"
  | some cb => linkedIconOfCB cb

/-- The filter of `parseBindingTargetNamespaces`:
`b.status?.phase === 'Succeeded' && b.status?.kubeconfigSecretRef`. -/
def succeededWithRef (b : BindableResourcesRequest) : Bool :=
  match b.status with
  | none => false
  | some st => st.phase == some "Succeeded" && st.kubeconfigSecretRef.isSome

/-- The fetches issued by one pass of `parseBindingTargetNamespaces`
(the resolver): the succeeded-with-artifact requests whose composite key
is not already cached. The cache is read synchronously during the loop;
all writes happen in asynchronous callbacks, so it is constant here. -/
def fetchesIssued (cache : List (String × String))
    (bindings : List BindableResourcesRequest) : List BindableResourcesRequest :=
  (bindings.filter succeededWithRef).filter
    (fun b => !(mapHas cache (requestBindingKey b)))

end BindingRequestsView

/-- The base64 alphabet: sextet value to character. -/
def sextetChar (n : Nat) : Char :=
  if n < 26 then Char.ofNat (65 + n)
  else if n < 52 then Char.ofNat (71 + n)
  else if n < 62 then Char.ofNat (n - 4)
  else if n = 62 then '+' else '/'

/-- Inverse of the base64 alphabet; `none` on a character outside it. -/
def charToSextet (c : Char) : Option Nat :=
  if 65 ≤ c.toNat ∧ c.toNat ≤ 90 then some (c.toNat - 65)
  else if 97 ≤ c.toNat ∧ c.toNat ≤ 122 then some (c.toNat - 71)
  else if 48 ≤ c.toNat ∧ c.toNat ≤ 57 then some (c.toNat + 4)
  else if c = '+' then some 62
  else if c = '/' then some 63
  else none

/-- `btoa` on the byte level: 3-byte groups to 4 base64 characters, with
`=`-padding for a final 1- or 2-byte group. -/
def btoaChars : List Nat → List Char
  | [] => []
  | [b1] => [sextetChar (b1 / 4), sextetChar (b1 % 4 * 16), '=', '=']
  | [b1, b2] =>
    [sextetChar (b1 / 4), sextetChar (b1 % 4 * 16 + b2 / 16), sextetChar (b2 % 16 * 4), '=']
  | b1 :: b2 :: b3 :: rest =>
    sextetChar (b1 / 4) :: sextetChar (b1 % 4 * 16 + b2 / 16) ::
      sextetChar (b2 % 16 * 4 + b3 / 64) :: sextetChar (b3 % 64) :: btoaChars rest

/-- `atob` on the byte level: 4-character groups to 3 bytes, padding only
at the end; `none` models the `InvalidCharacterError` exception. -/
def atobBytes : List Char → Option (List Nat)
  | [] => some []
  | c1 :: c2 :: c3 :: c4 :: rest =>
    match charToSextet c1, charToSextet c2 with
    | some s1, some s2 =>
      if c3 = '=' then
        if c4 = '=' ∧ rest = [] then some [s1 * 4 + s2 / 16] else none
      else
        match charToSextet c3 with
        | some s3 =>
          if c4 = '=' then
            if rest = [] then some [s1 * 4 + s2 / 16, s2 % 16 * 16 + s3 / 4] else none
          else
            match charToSextet c4 with
            | some s4 =>
              match atobBytes rest with
              | some bs =>
                some ((s1 * 4 + s2 / 16) :: (s2 % 16 * 16 + s3 / 4) :: (s3 % 4 * 64 + s4) :: bs)
              | none => none
            | none => none
        | none => none
    | _, _ => none
  | _ => none

/-- `btoa` over a string's code points (Latin-1 view). -/
def btoaLC (l : List Char) : List Char :=
  btoaChars (l.map Char.toNat)

/-- `atob` over a string's code points; `none` when the platform function
would throw. -/
def atobLC (l : List Char) : Option (List Char) :=
  (atobBytes l).map (fun bs => bs.map Char.ofNat)

/-- The ASCII members of the regex class `\s`. -/
def isJsWs (c : Char) : Bool :=
  c == ' ' || c == '\t' || c == '\n' || c == '\r' || c == '\x0b' || c == '\x0c'

/-- The literal part of the pattern `/namespace:\s*([^\s\n]+)/`. -/
def namespaceNeedle : List Char := "namespace:".toList

/-- Model of `kubeconfigYaml.match(/namespace:\s*([^\s\n]+)/)` (group 1
of the first match): at each position, if the literal `namespace:`
matches, skip whitespace greedily and take the maximal non-whitespace
run; an empty run means the pattern fails there and the scan advances. -/
def extractNs : List Char → Option (List Char)
  | [] => none
  | c :: rest =>
    if (c :: rest).take namespaceNeedle.length = namespaceNeedle then
      let tok := (((c :: rest).drop namespaceNeedle.length).dropWhile isJsWs).takeWhile
        (fun ch => !(isJsWs ch))
      if tok.isEmpty then extractNs rest else some tok
    else extractNs rest

/-- JSON whitespace. -/
def isJsonWs (c : Char) : Bool :=
  c == ' ' || c == '\t' || c == '\n' || c == '\r'

/-- Scan a JSON string body after its opening quote; returns the contents
and the remainder after the closing quote. Escapes do not occur in the
payloads modelled here, so a backslash is a parse failure. -/
def scanString : List Char → Option (List Char × List Char)
  | [] => none
  | '"' :: rest => some ([], rest)
  | '\\' :: _ => none
  | ch :: rest => (scanString rest).map (fun p => (ch :: p.1, p.2))

/-- Parse the members of a JSON object of string fields (after the
opening brace); returns the fields and the remainder after the closing
brace. The fuel is an upper bound on the member count. -/
def parseMembersFuel : Nat → List Char → Option (List (List Char × List Char) × List Char)
  | 0, _ => none
  | fuel + 1, l =>
    match l.dropWhile isJsonWs with
    | '"' :: rest =>
      match scanString rest with
      | none => none
      | some (key, rest1) =>
        match rest1.dropWhile isJsonWs with
        | ':' :: rest2 =>
          match rest2.dropWhile isJsonWs with
          | '"' :: rest3 =>
            match scanString rest3 with
            | none => none
            | some (val, rest4) =>
              match rest4.dropWhile isJsonWs with
              | ',' :: rest5 =>
                match parseMembersFuel fuel rest5 with
                | some (fields, rest6) => some ((key, val) :: fields, rest6)
                | none => none
              | '}' :: rest5 => some ([(key, val)], rest5)
              | _ => none
          | _ => none
        | _ => none
    | _ => none

/-- Model of `JSON.parse(content).kubeconfig` for the flat
object-of-strings fragment used by binding-response payloads: `none` when
`JSON.parse` would throw or the field is absent (both reached through the
same `catch`/falsy path in the source). -/
def jsonKubeconfigField (content : List Char) : Option (List Char) :=
  match content.dropWhile isJsonWs with
  | '{' :: rest =>
    match rest.dropWhile isJsonWs with
    | '}' :: _ => none
    | _ =>
      match parseMembersFuel (rest.length + 1) rest with
      | some (fields, restEnd) =>
        if (restEnd.dropWhile isJsonWs).isEmpty then
          (fields.find? (fun p => p.1 = "kubeconfig".toList)).map (fun p => p.2)
        else none
      | none => none
  | _ => none

/-- `extractNamespaceFromBindingResponse` of
`binding-requests.component.ts`: parse the decoded binding response,
take the truthy `kubeconfig` field, `atob` it (an exception reaches the
outer `catch` and yields `null`), and scan for the namespace token. -/
def extractNamespaceFromBindingResponse (content : List Char) : Option (List Char) :=
  match jsonKubeconfigField content with
  | none => none
  | some kc =>
    if kc.isEmpty then none
    else
      match atobLC kc with
      | none => none
      | some kubeconfigYaml => extractNs kubeconfigYaml

/-- The per-value decode of the resolver's subscribe callback
(`parseBindingTargetNamespaces`): `atob` the stored value (an exception
is caught and yields no namespace), then extract the namespace. -/
def decodeValueNamespace (enc : List Char) : Option (List Char) :=
  match atobLC enc with
  | none => none
  | some decodedContent => extractNamespaceFromBindingResponse decodedContent

/-- Key selection of `parseBindingTargetNamespaces`:
`secretRef.key || 'binding-response'`, then `secret.data[key]` guarded by
truthiness (`if (encodedContent)`). No fallback to another key. -/
def resolverSelectedValue (data : List (String × String)) (refKey : String) : Option String :=
  let key := if refKey == "" then "binding-response" else refKey
  match mapGet data key with
  | none => none
  | some enc => if enc == "" then none else some enc

/-- The namespace the resolver would cache for one fetched secret. -/
def resolverDecodeNamespace (data : List (String × String)) (refKey : String) :
    Option String :=
  match resolverSelectedValue data refKey with
  | none => none
  | some enc => (decodeValueNamespace enc.toList).map List.asString

/-- Key selection of `copyBindingFile`: `secretRef.key || 'response'`,
then `secret.data[key]`, falling back to the value of the first key when
that is falsy and the data map is non-empty; the result is used only if
truthy. -/
def copySelectedValue (data : List (String × String)) (refKey : String) : Option String :=
  let key := if refKey == "" then "response" else refKey
  let enc0 := (mapGet data key).getD ""
  let enc1 :=
    if enc0 == "" then
      match data with
      | [] => ""
      | p :: _ => p.2
    else enc0
  if enc1 == "" then none else some enc1

/-- The content `copyBindingFile` copies: best-effort `atob`, the raw
value on an `atob` exception. -/
def copyDecodedContent (data : List (String × String)) (refKey : String) : Option String :=
  (copySelectedValue data refKey).map (fun enc =>
    match atobLC enc.toList with
    | some d => d.asString
    | none => enc)

/-- Key selection and decode of `openBindingDetails`:
`secretRef.key || 'response'`, truthy value required, best-effort `atob`
with the raw value kept on an exception. -/
def detailsContent (data : List (String × String)) (refKey : String) : Option String :=
  let key := if refKey == "" then "response" else refKey
  match mapGet data key with
  | none => none
  | some enc =>
    if enc == "" then none
    else
      some
        (match atobLC enc.toList with
        | some d => d.asString
        | none => enc)

/-- The synthetic binding-response document of the round-trip property:
a JSON object whose `kubeconfig` field holds the given (base64) text. -/
def mkBindingDoc (kc : List Char) : List Char :=
  '{' :: '"' :: ("kubeconfig".toList ++ '"' :: ':' :: '"' :: (kc ++ ['"', '}']))

/-! ## Supporting lemmas -/


theorem roundSextet (n : Nat) (h : n < 64) : charToSextet (sextetChar n) = some n := by
  revert h
  revert n
  decide

theorem sextet_ne_pad (n : Nat) (h : n < 64) : sextetChar n ≠ '=' := by
  revert h
  revert n
  decide

theorem atob_btoa : ∀ (l : List Nat), (∀ b ∈ l, b < 256) → atobBytes (btoaChars l) = some l
  | [], _ => rfl
  | [b1], h => by
    have hb1 : b1 < 256 := h b1 (by simp)
    simp only [btoaChars, atobBytes]
    rw [roundSextet (b1 / 4) (by omega), roundSextet (b1 % 4 * 16) (by omega)]
    simp only []
    simp only [reduceIte, and_self, if_true]
    simp only [Option.some.injEq, List.cons.injEq, and_true]
    omega
  | [b1, b2], h => by
    have hb1 : b1 < 256 := h b1 (by simp)
    have hb2 : b2 < 256 := h b2 (by simp)
    simp only [btoaChars, atobBytes]
    rw [roundSextet (b1 / 4) (by omega), roundSextet (b1 % 4 * 16 + b2 / 16) (by omega)]
    simp only []
    rw [if_neg (sextet_ne_pad (b2 % 16 * 4) (by omega))]
    rw [roundSextet (b2 % 16 * 4) (by omega)]
    simp only [reduceIte, if_true]
    simp only [Option.some.injEq, List.cons.injEq, and_true]
    omega
  | b1 :: b2 :: b3 :: b4 :: rest, h => by
    have hb1 : b1 < 256 := h b1 (by simp)
    have hb2 : b2 < 256 := h b2 (by simp)
    have hb3 : b3 < 256 := h b3 (by simp)
    have ih := atob_btoa (b4 :: rest) (fun b hb => h b (by simp at hb ⊢; tauto))
    simp only [btoaChars, atobBytes]
    rw [roundSextet (b1 / 4) (by omega), roundSextet (b1 % 4 * 16 + b2 / 16) (by omega)]
    simp only []
    rw [if_neg (sextet_ne_pad (b2 % 16 * 4 + b3 / 64) (by omega))]
    rw [roundSextet (b2 % 16 * 4 + b3 / 64) (by omega)]
    simp only []
    rw [if_neg (sextet_ne_pad (b3 % 64) (by omega))]
    rw [roundSextet (b3 % 64) (by omega)]
    simp only []
    rw [ih]
    simp only [Option.some.injEq, List.cons.injEq, and_true]
    omega
  | [b1, b2, b3], h => by
    have hb1 : b1 < 256 := h b1 (by simp)
    have hb2 : b2 < 256 := h b2 (by simp)
    have hb3 : b3 < 256 := h b3 (by simp)
    simp only [btoaChars, atobBytes]
    rw [roundSextet (b1 / 4) (by omega), roundSextet (b1 % 4 * 16 + b2 / 16) (by omega)]
    simp only []
    rw [if_neg (sextet_ne_pad (b2 % 16 * 4 + b3 / 64) (by omega))]
    rw [roundSextet (b2 % 16 * 4 + b3 / 64) (by omega)]
    simp only []
    rw [if_neg (sextet_ne_pad (b3 % 64) (by omega))]
    rw [roundSextet (b3 % 64) (by omega)]
    simp only [atobBytes]
    simp only [Option.some.injEq, List.cons.injEq, and_true]
    omega


theorem scanString_append : ∀ (s r : List Char), '"' ∉ s → '\\' ∉ s →
    scanString (s ++ '"' :: r) = some (s, r)
  | [], r, _, _ => rfl
  | c :: s, r, hq, hb => by
    have hcq : c ≠ '"' := by simp at hq; tauto
    have hcb : c ≠ '\\' := by simp at hb; tauto
    have ih := scanString_append s r (by simp at hq; tauto) (by simp at hb; tauto)
    simp only [List.cons_append]
    rw [scanString.eq_def]
    split
    · simp_all
    · simp_all
    · simp_all
    · rename_i ch rest heq
      simp only [List.cons.injEq] at heq
      obtain ⟨rfl, hrest⟩ := heq
      rw [← hrest, ih]
      rfl

theorem dropWhile_all_append {p : Char → Bool} : ∀ {w l : List Char},
    (∀ c ∈ w, p c = true) → (w ++ l).dropWhile p = l.dropWhile p
  | [], _, _ => rfl
  | c :: w, l, h => by
    have hc : p c = true := h c (by simp)
    have ih := dropWhile_all_append (w := w) (l := l) (fun x hx => h x (by simp [hx]))
    simp [List.dropWhile, hc, ih]

theorem dropWhile_head_false (p : Char → Bool) (c : Char) (l : List Char)
    (h : p c = false) : (c :: l).dropWhile p = c :: l := by
  simp [List.dropWhile, h]

theorem takeWhile_all_append {p : Char → Bool} : ∀ {w l : List Char},
    (∀ c ∈ w, p c = true) → (w ++ l).takeWhile p = w ++ l.takeWhile p
  | [], _, _ => by simp
  | c :: w, l, h => by
    have hc : p c = true := h c (by simp)
    have ih := takeWhile_all_append (w := w) (l := l) (fun x hx => h x (by simp [hx]))
    simp [List.takeWhile, hc, ih]

theorem takeWhile_head_false (p : Char → Bool) (c : Char) (l : List Char)
    (h : p c = false) : (c :: l).takeWhile p = [] := by
  simp [List.takeWhile, h]

/-- Token extraction right at the needle. -/
theorem extractNs_at_needle (w2 tok w3 : List Char)
    (htok : tok ≠ []) (htokws : ∀ c ∈ tok, isJsWs c = false)
    (hw2 : ∀ c ∈ w2, isJsWs c = true) (hw3 : ∀ c ∈ w3, isJsWs c = true) :
    extractNs (namespaceNeedle ++ (w2 ++ tok ++ w3)) = some tok := by
  obtain ⟨t0, trest, rfl⟩ : ∃ t0 trest, tok = t0 :: trest := by
    cases tok with
    | nil => exact absurd rfl htok
    | cons a b => exact ⟨a, b, rfl⟩
  have hcons : namespaceNeedle ++ (w2 ++ (t0 :: trest) ++ w3)
      = 'n' :: ("amespace:".toList ++ (w2 ++ (t0 :: trest) ++ w3)) := rfl
  rw [hcons, extractNs.eq_def]
  simp only []
  rw [← hcons]
  rw [if_pos (by rw [show namespaceNeedle.length = List.length namespaceNeedle from rfl,
    List.take_left])]
  rw [List.drop_left]
  rw [List.append_assoc, dropWhile_all_append hw2]
  rw [List.cons_append]
  rw [dropWhile_head_false isJsWs t0 (trest ++ w3) (by simp [htokws t0 (by simp)])]
  have hq : ∀ c ∈ t0 :: trest, (fun ch => !(isJsWs ch)) c = true := by
    intro c hc
    simp [htokws c hc]
  rw [← List.cons_append, takeWhile_all_append hq]
  have hw3t : List.takeWhile (fun ch => !(isJsWs ch)) w3 = [] := by
    cases w3 with
    | nil => rfl
    | cons c0 w => exact takeWhile_head_false _ c0 w (by simp [hw3 c0 (by simp)])
  rw [hw3t]
  simp

theorem extractNs_ws_prefix : ∀ (w rest : List Char), (∀ c ∈ w, isJsWs c = true) →
    extractNs (w ++ rest) = extractNs rest
  | [], _, _ => rfl
  | c :: w, rest, h => by
    have hc : isJsWs c = true := h c (by simp)
    have ih := extractNs_ws_prefix w rest (fun x hx => h x (by simp [hx]))
    rw [List.cons_append, extractNs.eq_def]
    simp only []
    rw [if_neg ?hne]
    · exact ih
    case hne =>
      intro heq
      rw [show namespaceNeedle.length = 10 from rfl] at heq
      rw [show namespaceNeedle = 'n' :: "amespace:".toList from rfl] at heq
      rw [List.take_succ_cons] at heq
      simp only [List.cons.injEq] at heq
      obtain ⟨rfl, -⟩ := heq
      exact absurd hc (by decide)

theorem sextet_props : ∀ n < 64, sextetChar n ≠ '"' ∧ sextetChar n ≠ '\\' ∧ (sextetChar n).toNat < 256 := by
  decide

theorem mem_btoaChars_props : ∀ (bs : List Nat), (∀ b ∈ bs, b < 256) →
    ∀ c ∈ btoaChars bs, c ≠ '"' ∧ c ≠ '\\' ∧ c.toNat < 256
  | [], _, c, hc => by simp [btoaChars] at hc
  | [b1], h, c, hc => by
    have hb1 : b1 < 256 := h b1 (by simp)
    simp only [btoaChars, List.mem_cons, List.not_mem_nil, or_false] at hc
    rcases hc with rfl | rfl | rfl | rfl
    · exact sextet_props _ (by omega)
    · exact sextet_props _ (by omega)
    · exact ⟨by decide, by decide, by decide⟩
    · exact ⟨by decide, by decide, by decide⟩
  | [b1, b2], h, c, hc => by
    have hb1 : b1 < 256 := h b1 (by simp)
    have hb2 : b2 < 256 := h b2 (by simp)
    simp only [btoaChars, List.mem_cons, List.not_mem_nil, or_false] at hc
    rcases hc with rfl | rfl | rfl | rfl
    · exact sextet_props _ (by omega)
    · exact sextet_props _ (by omega)
    · exact sextet_props _ (by omega)
    · exact ⟨by decide, by decide, by decide⟩
  | b1 :: b2 :: b3 :: rest, h, c, hc => by
    have hb1 : b1 < 256 := h b1 (by simp)
    have hb2 : b2 < 256 := h b2 (by simp)
    have hb3 : b3 < 256 := h b3 (by simp)
    have ih := mem_btoaChars_props rest (fun b hb => h b (by simp [hb]))
    simp only [btoaChars, List.mem_cons] at hc
    rcases hc with rfl | rfl | rfl | rfl | hmem
    · exact sextet_props _ (by omega)
    · exact sextet_props _ (by omega)
    · exact sextet_props _ (by omega)
    · exact sextet_props _ (by omega)
    · exact ih c hmem

theorem btoaChars_ne_nil : ∀ (bs : List Nat), bs ≠ [] → btoaChars bs ≠ []
  | [], h => absurd rfl h
  | [_], _ => by simp [btoaChars]
  | [_, _], _ => by simp [btoaChars]
  | _ :: _ :: _ :: _, _ => by simp [btoaChars]

theorem atobLC_btoaLC (l : List Char) (h : ∀ c ∈ l, c.toNat < 256) :
    atobLC (btoaLC l) = some l := by
  unfold atobLC btoaLC
  rw [atob_btoa (l.map Char.toNat) ?hbs]
  · simp only [Option.map_some', Option.some.injEq, List.map_map]
    have hid : ∀ x ∈ l, (Char.ofNat ∘ Char.toNat) x = id x := by
      intro x _
      simp [Char.ofNat_toNat]
    rw [List.map_congr_left hid, List.map_id]
  case hbs =>
    intro b hb
    simp only [List.mem_map] at hb
    obtain ⟨c, hc, rfl⟩ := hb
    exact h c hc


theorem parseMembersFuel_single (fuel : Nat) (key kc : List Char)
    (hkq : '"' ∉ key) (hkb : '\\' ∉ key)
    (hq : '"' ∉ kc) (hb : '\\' ∉ kc) :
    parseMembersFuel (fuel + 1) ('"' :: (key ++ '"' :: (':' :: '"' :: (kc ++ '"' :: ['}'])))) =
      some ([(key, kc)], []) := by
  rw [parseMembersFuel.eq_def]
  simp only []
  rw [dropWhile_head_false isJsonWs '"' _ (by decide)]
  simp only []
  rw [scanString_append key _ hkq hkb]
  simp only []
  rw [dropWhile_head_false isJsonWs ':' _ (by decide)]
  simp only []
  rw [dropWhile_head_false isJsonWs '"' _ (by decide)]
  simp only []
  rw [scanString_append kc ['}'] hq hb]
  simp only []
  rw [dropWhile_head_false isJsonWs '}' _ (by decide)]
  rfl


theorem jsonKubeconfigField_mkBindingDoc (kc : List Char)
    (hq : '"' ∉ kc) (hb : '\\' ∉ kc) :
    jsonKubeconfigField (mkBindingDoc kc) = some kc := by
  unfold mkBindingDoc jsonKubeconfigField
  rw [dropWhile_head_false isJsonWs '{' _ (by decide)]
  simp only []
  rw [dropWhile_head_false isJsonWs '"' _ (by decide)]
  split
  · rename_i heq
    simp at heq
  · rw [parseMembersFuel_single _ _ kc (by decide) (by decide) hq hb]
    simp [List.find?]


/-- The well-formed round trip: encoding a namespace token into the
nested synthetic artifact and running the resolver's per-value decode
recovers the token. -/
theorem decode_roundTrip_helper (w1 w2 tok w3 : List Char)
    (htok : tok ≠ []) (htokws : ∀ c ∈ tok, isJsWs c = false)
    (htokb : ∀ c ∈ tok, c.toNat < 256)
    (hw1 : ∀ c ∈ w1, isJsWs c = true) (hw1b : ∀ c ∈ w1, c.toNat < 256)
    (hw2 : ∀ c ∈ w2, isJsWs c = true) (hw2b : ∀ c ∈ w2, c.toNat < 256)
    (hw3 : ∀ c ∈ w3, isJsWs c = true) (hw3b : ∀ c ∈ w3, c.toNat < 256) :
    decodeValueNamespace
      (btoaLC (mkBindingDoc (btoaLC (w1 ++ namespaceNeedle ++ (w2 ++ tok ++ w3))))) =
      some tok := by
  have hneedleb : ∀ c ∈ namespaceNeedle, c.toNat < 256 := by decide
  have hinnerb : ∀ c ∈ w1 ++ namespaceNeedle ++ (w2 ++ tok ++ w3), c.toNat < 256 := by
    intro c hc
    simp only [List.mem_append] at hc
    rcases hc with (h1 | h2) | (h3 | h4) | h5
    · exact hw1b c h1
    · exact hneedleb c h2
    · exact hw2b c h3
    · exact htokb c h4
    · exact hw3b c h5
  have hkc : ∀ c ∈ btoaLC (w1 ++ namespaceNeedle ++ (w2 ++ tok ++ w3)),
      c ≠ '"' ∧ c ≠ '\\' ∧ c.toNat < 256 := by
    intro c hc
    refine mem_btoaChars_props _ ?hb c hc
    intro b hbm
    simp only [List.mem_map] at hbm
    obtain ⟨x, hx, rfl⟩ := hbm
    exact hinnerb x hx
  have hdocb : ∀ c ∈ mkBindingDoc (btoaLC (w1 ++ namespaceNeedle ++ (w2 ++ tok ++ w3))),
      c.toNat < 256 := by
    intro c hc
    unfold mkBindingDoc at hc
    simp only [List.mem_cons, List.mem_append, List.not_mem_nil, or_false] at hc
    rcases hc with rfl | rfl | hkey | rfl | rfl | rfl | hmem | rfl | rfl
    · decide
    · decide
    · revert hkey
      revert c
      decide
    · decide
    · decide
    · decide
    · exact (hkc c hmem).2.2
    · decide
    · decide
  unfold decodeValueNamespace
  rw [atobLC_btoaLC _ hdocb]
  simp only []
  unfold extractNamespaceFromBindingResponse
  rw [jsonKubeconfigField_mkBindingDoc _ (fun hmem => (hkc _ hmem).1 rfl)
    (fun hmem => (hkc _ hmem).2.1 rfl)]
  simp only []
  have hne : btoaLC (w1 ++ namespaceNeedle ++ (w2 ++ tok ++ w3)) ≠ [] := by
    refine btoaChars_ne_nil _ ?hmap
    intro hmapnil
    rw [List.map_eq_nil_iff] at hmapnil
    have hlen := congrArg List.length hmapnil
    simp [namespaceNeedle] at hlen
  have hkc_ne : (btoaLC (w1 ++ namespaceNeedle ++ (w2 ++ tok ++ w3))).isEmpty = false := by
    rcases hx : btoaLC (w1 ++ namespaceNeedle ++ (w2 ++ tok ++ w3)) with _ | ⟨a, l⟩
    · exact absurd hx hne
    · rfl
  rw [if_neg (by rw [hkc_ne]; exact Bool.false_ne_true)]
  rw [atobLC_btoaLC _ hinnerb]
  simp only []
  rw [List.append_assoc, extractNs_ws_prefix w1 _ hw1,
    extractNs_at_needle w2 tok w3 htok htokws hw2 hw3]


theorem mapGet_map_replace (k v : String) : ∀ (m : List (String × String)),
    (m.find? (fun p => p.1 == k)).isSome = true →
    mapGet (m.map (fun p => if p.1 == k then (k, v) else p)) k = some v
  | [], h => by simp [List.find?] at h
  | p :: m, h => by
    by_cases hp : p.1 == k
    · simp only [List.map_cons, hp, if_pos]
      unfold mapGet
      rw [List.find?_cons_of_pos _ (by simp)]
      rfl
    · have hp' : (p.1 == k) = false := by simpa using hp
      simp only [List.map_cons, hp', Bool.false_eq_true, if_false]
      unfold mapGet at *
      rw [List.find?_cons_of_neg _ (by simp [hp'])]
      have hfind : (m.find? (fun q => q.1 == k)).isSome = true := by
        rw [List.find?_cons_of_neg _ (by simp [hp'])] at h
        exact h
      exact mapGet_map_replace k v m hfind

theorem mapGet_append_single (k v : String) : ∀ (m : List (String × String)),
    (m.find? (fun p => p.1 == k)).isSome = false →
    mapGet (m ++ [(k, v)]) k = some v
  | [], _ => by
    unfold mapGet
    rw [List.nil_append, List.find?_cons_of_pos _ (by simp)]
    rfl
  | p :: m, h => by
    have hp : (p.1 == k) = false := by
      by_contra hcon
      rw [List.find?_cons_of_pos _ (by simpa using hcon)] at h
      simp at h
    unfold mapGet at *
    rw [List.cons_append, List.find?_cons_of_neg _ (by simp [hp])]
    have hfind : (m.find? (fun q => q.1 == k)).isSome = false := by
      rw [List.find?_cons_of_neg _ (by simp [hp])] at h
      exact h
    exact mapGet_append_single k v m hfind

theorem mapGet_mapSet_self (m : List (String × String)) (k v : String) :
    mapGet (mapSet m k v) k = some v := by
  unfold mapSet
  by_cases hfind : (m.find? (fun p => p.1 == k)).isSome = true
  · rw [if_pos hfind]
    exact mapGet_map_replace k v m hfind
  · rw [if_neg hfind]
    refine mapGet_append_single k v m ?hf
    simp only [Bool.not_eq_true] at hfind
    exact hfind

/-- Claim C1 (counterexample): the cache write of
`parseBindingTargetNamespaces` is a plain `Map.set`, so a second `put`
for an existing key overwrites: after `put("k","v1")` and `put("k","v2")`,
`get("k")` is `"v2"`, not `"v1"`. -/
theorem mapSet_overwrite_cex :
    mapGet (mapSet (mapSet [] "k" "v1") "k" "v2") "k" = some "v2" ∧
    mapGet (mapSet (mapSet [] "k" "v1") "k" "v2") "k" ≠ some "v1" := by
  constructor
  · rfl
  · decide

/-- Claim C1 (amended): the Correlation Cache `put` is last-write-wins:
`put(k,v1)` followed by `put(k,v2)` leaves `get(k) == v2`. (Write-once
behaviour exists only at the resolver level, which never starts a
resolution for a key already in the cache.) -/
theorem mapSet_lastWriteWins (m : List (String × String)) (k v1 v2 : String) :
    mapGet (mapSet (mapSet m k v1) k v2) k = some v2 :=
  mapGet_mapSet_self (mapSet m k v1) k v2


/-- Claim C5: one resolver pass (`parseBindingTargetNamespaces`) issues
an artifact fetch for a request exactly when the request is a resolution
candidate: phase `Succeeded`, a `kubeconfigSecretRef` present in its
status, and its composite `namespace/name` key not already in the cache.
In particular a non-`Succeeded` request never triggers a fetch, and a
pass over an already-cached request triggers none. -/
theorem resolver_fetch_iff_candidate (cache : List (String × String))
    (bindings : List BindableResourcesRequest) (b : BindableResourcesRequest) :
    b ∈ BindingRequestsView.fetchesIssued cache bindings ↔
      b ∈ bindings ∧ b.status.bind RequestStatus.phase = some "Succeeded" ∧
        (b.status.bind RequestStatus.kubeconfigSecretRef).isSome = true ∧
        mapHas cache (BindingRequestsView.requestBindingKey b) = false := by
  unfold BindingRequestsView.fetchesIssued
  simp only [List.mem_filter, Bool.not_eq_true']
  cases hst : b.status with
  | none =>
    simp [BindingRequestsView.succeededWithRef, hst]
  | some st =>
    simp [BindingRequestsView.succeededWithRef, hst, and_assoc]

/-- Claim C6 (counterexample): there is no in-flight tracking. With an
empty cache, a resolver pass over a single succeeded request issues its
fetch; a second pass started before that fetch completes sees the same
still-empty cache (writes happen only in the fetch callback) and issues
the very same fetch again. -/
theorem resolve_reissues_inflight_cex :
    BindingRequestsView.fetchesIssued []
        [⟨⟨"req-a", some "ns1"⟩,
          some ⟨some "Succeeded", some ⟨"kubeconfig-req-a", "binding-response"⟩⟩⟩] =
      [⟨⟨"req-a", some "ns1"⟩,
        some ⟨some "Succeeded", some ⟨"kubeconfig-req-a", "binding-response"⟩⟩⟩] ∧
    mapHas []
        (BindingRequestsView.requestBindingKey
          ⟨⟨"req-a", some "ns1"⟩,
            some ⟨some "Succeeded", some ⟨"kubeconfig-req-a", "binding-response"⟩⟩⟩) =
      false := by
  constructor
  · rfl
  · rfl

/-- Claim C6 (amended): re-invoking `resolve` skips exactly the
already-cached keys; a candidate whose key is not yet cached (including
one whose first fetch is still in flight) is fetched again on every
re-invocation. -/
theorem resolve_skips_only_cached (cache : List (String × String))
    (bindings : List BindableResourcesRequest) (b : BindableResourcesRequest) :
    (mapHas cache (BindingRequestsView.requestBindingKey b) = true →
      b ∉ BindingRequestsView.fetchesIssued cache bindings) ∧
    (b ∈ bindings → BindingRequestsView.succeededWithRef b = true →
      mapHas cache (BindingRequestsView.requestBindingKey b) = false →
      b ∈ BindingRequestsView.fetchesIssued cache bindings) := by
  unfold BindingRequestsView.fetchesIssued
  constructor
  · intro hhas hmem
    simp only [List.mem_filter, Bool.not_eq_true'] at hmem
    rw [hhas] at hmem
    exact absurd hmem.2 (by decide)
  · intro hmem hok hhas
    simp only [List.mem_filter, Bool.not_eq_true']
    exact ⟨⟨hmem, hok⟩, hhas⟩

/-- Witness for the amended C6 statement at concrete inputs: a cached
key is skipped, an uncached candidate is fetched. -/
theorem resolve_skips_only_cached_witness :
    (⟨⟨"req-a", some "ns1"⟩,
        some ⟨some "Succeeded", some ⟨"kubeconfig-req-a", "binding-response"⟩⟩⟩ ∉
      BindingRequestsView.fetchesIssued [("ns1/req-a", "target-ns")]
        [⟨⟨"req-a", some "ns1"⟩,
          some ⟨some "Succeeded", some ⟨"kubeconfig-req-a", "binding-response"⟩⟩⟩]) ∧
    (⟨⟨"req-a", some "ns1"⟩,
        some ⟨some "Succeeded", some ⟨"kubeconfig-req-a", "binding-response"⟩⟩⟩ ∈
      BindingRequestsView.fetchesIssued []
        [⟨⟨"req-a", some "ns1"⟩,
          some ⟨some "Succeeded", some ⟨"kubeconfig-req-a", "binding-response"⟩⟩⟩]) :=
  ⟨(resolve_skips_only_cached _ _ _).1 rfl,
   (resolve_skips_only_cached _ _ _).2 (by simp) rfl rfl⟩


theorem find?_eq_some_first {α : Type} (p : α → Bool) : ∀ (l : List α) (a : α),
    l.find? p = some a →
    p a = true ∧ ∃ l1 l2, l = l1 ++ a :: l2 ∧ ∀ x ∈ l1, p x = false
  | [], a, h => by simp [List.find?] at h
  | x :: l, a, h => by
    by_cases hx : p x = true
    · rw [List.find?_cons_of_pos _ hx] at h
      obtain rfl := Option.some.inj h
      exact ⟨hx, [], l, rfl, by simp⟩
    · have hx' : (p x) = false := by simpa using hx
      rw [List.find?_cons_of_neg _ (by simp [hx'])] at h
      obtain ⟨hp, l1, l2, rfl, hl1⟩ := find?_eq_some_first p l a h
      refine ⟨hp, x :: l1, l2, rfl, ?hall⟩
      intro y hy
      rcases List.mem_cons.mp hy with rfl | hy2
      · exact hx'
      · exact hl1 y hy2

/-- Claim C7 (counterexample): a cache entry whose value is the empty
string is present in the cache, yet `getLinkedClusterBinding` treats it
as absent (JavaScript truthiness of `""`) and applies the same-namespace
fallback, returning a record whose namespace differs from the cached
value — the claim predicts no match. -/
theorem match_emptyTarget_cex :
    mapGet [("ns1/req-a", "")] "ns1/req-a" = some "" ∧
    BindingRequestsView.getLinkedClusterBinding ⟨⟨"req-a", some "ns1"⟩, none⟩
        [("ns1/req-a", "")] [⟨⟨"rec1", some "ns1"⟩, none⟩] =
      some ⟨⟨"rec1", some "ns1"⟩, none⟩ ∧
    (⟨⟨"rec1", some "ns1"⟩, none⟩ : ClusterBinding).metadata.ns ≠ some "" := by
  refine ⟨rfl, rfl, by decide⟩

/-- Claim C7 (amended): `match` is two-tier with first-match-wins, but a
cache entry counts only if its value is non-empty: a key mapped to a
non-empty namespace selects the first record with that namespace (first
in the precise sense decomposed below); a key that is absent or mapped
to `""` selects the first record with the request's own (defaulted)
namespace; `find?` returns `none` when neither tier matches. -/
theorem match_twoTier_amended (request : BindableResourcesRequest)
    (cache : List (String × String)) (records : List ClusterBinding) :
    (∀ t, mapGet cache (BindingRequestsView.requestBindingKey request) = some t →
      t ≠ "" →
      (BindingRequestsView.getLinkedClusterBinding request cache records =
        records.find? (fun cb => cb.metadata.ns == some t) ∧
       ∀ r, records.find? (fun cb => cb.metadata.ns == some t) = some r →
         r.metadata.ns = some t ∧
           ∃ l1 l2, records = l1 ++ r :: l2 ∧ ∀ x ∈ l1, x.metadata.ns ≠ some t)) ∧
    ((mapGet cache (BindingRequestsView.requestBindingKey request)).getD "" = "" →
      BindingRequestsView.getLinkedClusterBinding request cache records =
        records.find?
          (fun cb => cb.metadata.ns == some (BindingRequestsView.requestNamespace request))) := by
  constructor
  · intro t hget hne
    constructor
    · unfold BindingRequestsView.getLinkedClusterBinding
      rw [hget]
      simp only [Option.getD_some]
      rw [if_neg (by simpa using hne)]
    · intro r hfind
      obtain ⟨hp, l1, l2, hdecomp, hall⟩ := find?_eq_some_first _ records r hfind
      refine ⟨by simpa using hp, l1, l2, hdecomp, ?hno⟩
      intro x hx
      have := hall x hx
      simpa using this
  · intro hget
    unfold BindingRequestsView.getLinkedClusterBinding
    rcases hcase : mapGet cache (BindingRequestsView.requestBindingKey request) with _ | t
    · simp
    · rw [hcase] at hget
      simp only [Option.getD_some] at hget
      subst hget
      simp

/-- Witness for the amended C7 statement: with a non-empty cached
namespace the first matching record is returned, and with an absent
entry the own-namespace fallback applies. -/
theorem match_twoTier_amended_witness :
    BindingRequestsView.getLinkedClusterBinding ⟨⟨"req-a", some "ns1"⟩, none⟩
        [("ns1/req-a", "target")]
        [⟨⟨"rec1", some "target"⟩, none⟩, ⟨⟨"rec2", some "other"⟩, none⟩] =
      List.find? (fun cb => cb.metadata.ns == some "target")
        [⟨⟨"rec1", some "target"⟩, none⟩, ⟨⟨"rec2", some "other"⟩, none⟩] ∧
    BindingRequestsView.getLinkedClusterBinding ⟨⟨"req-c", some "ns1"⟩, none⟩ []
        [⟨⟨"rec3", some "ns1"⟩, none⟩] =
      List.find? (fun cb => cb.metadata.ns == some "ns1")
        [⟨⟨"rec3", some "ns1"⟩, none⟩] :=
  ⟨((match_twoTier_amended ⟨⟨"req-a", some "ns1"⟩, none⟩ [("ns1/req-a", "target")]
      [⟨⟨"rec1", some "target"⟩, none⟩, ⟨⟨"rec2", some "other"⟩, none⟩]).1
      "target" rfl (by decide)).1,
   (match_twoTier_amended ⟨⟨"req-c", some "ns1"⟩, none⟩ []
      [⟨⟨"rec3", some "ns1"⟩, none⟩]).2 rfl⟩

/-- Claim C10 (counterexample): with a cache entry present but equal to
the empty string, and no record whose namespace equals that cached
value, `match` does not return `none`: the truthiness check routes it to
the same-namespace fallback, which matches. -/
theorem match_cachedEntry_fallback_cex :
    mapGet [("ns2/req-b", "")] "ns2/req-b" = some "" ∧
    (⟨⟨"rec3", some "ns2"⟩, none⟩ : ClusterBinding).metadata.ns ≠ some "" ∧
    BindingRequestsView.getLinkedClusterBinding ⟨⟨"req-b", some "ns2"⟩, none⟩
        [("ns2/req-b", "")] [⟨⟨"rec3", some "ns2"⟩, none⟩] =
      some ⟨⟨"rec3", some "ns2"⟩, none⟩ := by
  refine ⟨rfl, by decide, rfl⟩

/-- Claim C10 (amended): when the cache maps the request's key to a
non-empty namespace and no record carries that namespace, `match`
returns `none`; the same-namespace fallback runs only when the key is
absent or maps to the empty string. -/
theorem match_noFallback_onCachedMiss (request : BindableResourcesRequest)
    (cache : List (String × String)) (records : List ClusterBinding) (t : String)
    (hget : mapGet cache (BindingRequestsView.requestBindingKey request) = some t)
    (hne : t ≠ "")
    (hnomatch : ∀ cb ∈ records, cb.metadata.ns ≠ some t) :
    BindingRequestsView.getLinkedClusterBinding request cache records = none := by
  unfold BindingRequestsView.getLinkedClusterBinding
  rw [hget]
  simp only [Option.getD_some]
  rw [if_neg (by simpa using hne)]
  rw [List.find?_eq_none]
  intro cb hcb
  simpa using hnomatch cb hcb

/-- Witness for the amended C10 statement at concrete inputs. -/
theorem match_noFallback_onCachedMiss_witness :
    BindingRequestsView.getLinkedClusterBinding ⟨⟨"req-b", some "ns2"⟩, none⟩
        [("ns2/req-b", "target-x")] [⟨⟨"rec3", some "ns2"⟩, none⟩] = none :=
  match_noFallback_onCachedMiss ⟨⟨"req-b", some "ns2"⟩, none⟩ [("ns2/req-b", "target-x")]
    [⟨⟨"rec3", some "ns2"⟩, none⟩] "target-x" rfl (by decide) (by decide)


/-- Claim C9: the condition projector of the cluster-bindings view is a
pure total three-tier function: a `Ready` condition dominates (`True`
gives the ready/success/connected triple, anything else the
not-ready/error/disconnected triple); otherwise a `Healthy` condition is
used the same way with healthy/unhealthy labels; otherwise a non-empty
heartbeat gives the connected triple and absence gives the unknown
triple (pending class, hint icon). -/
theorem healthProjection_threeTier (cb : ClusterBinding) :
    (∀ c, findCondition cb "Ready" = some c →
      (ClusterBindingsView.getHealthStatus cb, ClusterBindingsView.getHealthClass cb,
        ClusterBindingsView.getHealthIcon cb) =
        if c.status = "True" then ("Ready", "success", "connected")
        else ("Not Ready", "error", "disconnected")) ∧
    (findCondition cb "Ready" = none → ∀ c, findCondition cb "Healthy" = some c →
      (ClusterBindingsView.getHealthStatus cb, ClusterBindingsView.getHealthClass cb,
        ClusterBindingsView.getHealthIcon cb) =
        if c.status = "True" then ("Healthy", "success", "connected")
        else ("Unhealthy", "error", "disconnected")) ∧
    (findCondition cb "Ready" = none → findCondition cb "Healthy" = none →
      (ClusterBindingsView.getHealthStatus cb, ClusterBindingsView.getHealthClass cb,
        ClusterBindingsView.getHealthIcon cb) =
        if hasHeartbeat cb then ("Connected", "success", "connected")
        else ("Unknown", "pending", "hint")) := by
  refine ⟨?ready, ?healthy, ?fallback⟩
  case ready =>
    intro c h
    unfold ClusterBindingsView.getHealthStatus ClusterBindingsView.getHealthClass
      ClusterBindingsView.getHealthIcon
    rw [h]
    by_cases hs : c.status = "True"
    · simp [hs]
    · simp [hs]
  case healthy =>
    intro hr c h
    unfold ClusterBindingsView.getHealthStatus ClusterBindingsView.getHealthClass
      ClusterBindingsView.getHealthIcon
    rw [hr, h]
    by_cases hs : c.status = "True"
    · simp [hs]
    · simp [hs]
  case fallback =>
    intro hr hh
    unfold ClusterBindingsView.getHealthStatus ClusterBindingsView.getHealthClass
      ClusterBindingsView.getHealthIcon
    rw [hr, hh]
    by_cases hb : hasHeartbeat cb = true
    · simp [hb]
    · simp only [Bool.not_eq_true] at hb
      simp [hb]

/-- Witness for C9 at concrete inputs: `Ready/False` yields the
not-ready/error/disconnected triple; no conditions and no heartbeat
yields the unknown triple; no conditions with a heartbeat yields the
connected triple. -/
theorem healthProjection_threeTier_witness :
    (ClusterBindingsView.getHealthStatus ⟨⟨"cb1", some "nsa"⟩, some ⟨none, some [⟨"Ready", "False"⟩]⟩⟩,
      ClusterBindingsView.getHealthClass ⟨⟨"cb1", some "nsa"⟩, some ⟨none, some [⟨"Ready", "False"⟩]⟩⟩,
      ClusterBindingsView.getHealthIcon ⟨⟨"cb1", some "nsa"⟩, some ⟨none, some [⟨"Ready", "False"⟩]⟩⟩) =
      ("Not Ready", "error", "disconnected") ∧
    (ClusterBindingsView.getHealthStatus ⟨⟨"cb2", none⟩, none⟩,
      ClusterBindingsView.getHealthClass ⟨⟨"cb2", none⟩, none⟩,
      ClusterBindingsView.getHealthIcon ⟨⟨"cb2", none⟩, none⟩) =
      ("Unknown", "pending", "hint") ∧
    (ClusterBindingsView.getHealthStatus ⟨⟨"cb3", none⟩, some ⟨some "2024-01-01T00:00:00Z", none⟩⟩,
      ClusterBindingsView.getHealthClass ⟨⟨"cb3", none⟩, some ⟨some "2024-01-01T00:00:00Z", none⟩⟩,
      ClusterBindingsView.getHealthIcon ⟨⟨"cb3", none⟩, some ⟨some "2024-01-01T00:00:00Z", none⟩⟩) =
      ("Connected", "success", "connected") := by
  refine ⟨?w1, ?w2, ?w3⟩
  case w1 =>
    have h := (healthProjection_threeTier
      ⟨⟨"cb1", some "nsa"⟩, some ⟨none, some [⟨"Ready", "False"⟩]⟩⟩).1 ⟨"Ready", "False"⟩ rfl
    rw [if_neg (by decide)] at h
    exact h
  case w2 =>
    have h := (healthProjection_threeTier ⟨⟨"cb2", none⟩, none⟩).2.2 rfl rfl
    rw [if_neg (by decide)] at h
    exact h
  case w3 =>
    have h := (healthProjection_threeTier
      ⟨⟨"cb3", none⟩, some ⟨some "2024-01-01T00:00:00Z", none⟩⟩).2.2 rfl rfl
    rw [if_pos (by decide)] at h
    exact h

/-- Claim C2 (counterexample): the three-tier fallback is not applied
identically everywhere: the binding-requests view has no `Healthy` tier,
so a ClusterBinding whose only condition is `Healthy/True` projects as
Healthy/success/connected in the cluster-bindings view but as
Unknown/pending/hint in the binding-requests view. -/
theorem healthProjection_divergence_cex :
    ClusterBindingsView.getHealthStatus
        ⟨⟨"cb-h", some "nsx"⟩, some ⟨none, some [⟨"Healthy", "True"⟩]⟩⟩ = "Healthy" ∧
    BindingRequestsView.linkedStatusOfCB
        ⟨⟨"cb-h", some "nsx"⟩, some ⟨none, some [⟨"Healthy", "True"⟩]⟩⟩ = "Unknown" ∧
    ClusterBindingsView.getHealthClass
        ⟨⟨"cb-h", some "nsx"⟩, some ⟨none, some [⟨"Healthy", "True"⟩]⟩⟩ = "success" ∧
    BindingRequestsView.linkedClassOfCB
        ⟨⟨"cb-h", some "nsx"⟩, some ⟨none, some [⟨"Healthy", "True"⟩]⟩⟩ = "pending" ∧
    ClusterBindingsView.getHealthIcon
        ⟨⟨"cb-h", some "nsx"⟩, some ⟨none, some [⟨"Healthy", "True"⟩]⟩⟩ = "connected" ∧
    BindingRequestsView.linkedIconOfCB
        ⟨⟨"cb-h", some "nsx"⟩, some ⟨none, some [⟨"Healthy", "True"⟩]⟩⟩ = "hint" := by
  refine ⟨rfl, rfl, rfl, rfl, rfl, rfl⟩

/-- Claim C2 (amended): the cluster-bindings and bindings views compute
identical health projections on every ClusterBinding; the
binding-requests view omits the `Healthy` tier (Ready, else heartbeat),
so its projection agrees with the others exactly on ClusterBindings that
have a `Ready` condition or no `Healthy` condition. -/
theorem healthProjection_agreement (cb : ClusterBinding) :
    (ClusterBindingsView.getHealthStatus cb = BindingsView.getHealthStatus cb ∧
     ClusterBindingsView.getHealthClass cb = BindingsView.getHealthClass cb ∧
     ClusterBindingsView.getHealthIcon cb = BindingsView.getHealthIcon cb) ∧
    ((findCondition cb "Ready").isSome = true ∨ findCondition cb "Healthy" = none →
      BindingRequestsView.linkedStatusOfCB cb = BindingsView.getHealthStatus cb ∧
      BindingRequestsView.linkedClassOfCB cb = BindingsView.getHealthClass cb ∧
      BindingRequestsView.linkedIconOfCB cb = BindingsView.getHealthIcon cb) := by
  constructor
  · exact ⟨rfl, rfl, rfl⟩
  · intro h
    unfold BindingRequestsView.linkedStatusOfCB BindingRequestsView.linkedClassOfCB
      BindingRequestsView.linkedIconOfCB BindingsView.getHealthStatus
      BindingsView.getHealthClass BindingsView.getHealthIcon
    rcases hr : findCondition cb "Ready" with _ | c
    · rcases h with hsome | hnone
      · rw [hr] at hsome
        simp at hsome
      · rw [hnone]
        exact ⟨rfl, rfl, rfl⟩
    · exact ⟨rfl, rfl, rfl⟩

/-- Witness for the amended C2 statement: on a ClusterBinding with a
`Ready` condition the binding-requests projection agrees with the
bindings view; likewise on one with no conditions at all. -/
theorem healthProjection_agreement_witness :
    (BindingRequestsView.linkedStatusOfCB
        ⟨⟨"cb-r", some "nsy"⟩, some ⟨none, some [⟨"Ready", "True"⟩]⟩⟩ =
      BindingsView.getHealthStatus
        ⟨⟨"cb-r", some "nsy"⟩, some ⟨none, some [⟨"Ready", "True"⟩]⟩⟩) ∧
    (BindingRequestsView.linkedStatusOfCB ⟨⟨"cb-n", none⟩, none⟩ =
      BindingsView.getHealthStatus ⟨⟨"cb-n", none⟩, none⟩) :=
  ⟨((healthProjection_agreement
      ⟨⟨"cb-r", some "nsy"⟩, some ⟨none, some [⟨"Ready", "True"⟩]⟩⟩).2 (Or.inl rfl)).1,
   ((healthProjection_agreement ⟨⟨"cb-n", none⟩, none⟩).2 (Or.inr rfl)).1⟩


/-- Claim C3 (counterexample): the resolver path has no fallback to the
first key. A secret whose (non-empty) data map holds a fully well-formed
payload under the key `"other"` resolves to nothing when the requested
key (defaulted `"binding-response"`) is absent — even though the
payload, if selected, decodes to the namespace `foo`. -/
theorem resolverDecode_noFallback_cex :
    resolverDecodeNamespace
        [("other", (btoaLC (mkBindingDoc (btoaLC "namespace: foo".toList))).asString)] "" =
      none ∧
    ([("other", (btoaLC (mkBindingDoc (btoaLC "namespace: foo".toList))).asString)] :
        List (String × String)) ≠ [] ∧
    decodeValueNamespace (btoaLC (mkBindingDoc (btoaLC "namespace: foo".toList))) =
      some "foo".toList := by
  refine ⟨rfl, by simp, by decide⟩

/-- Claim C3 (amended): only the copy-binding-file path falls back to
the first key of a non-empty data map; the resolver's decode uses the
requested key alone (default `"binding-response"`) and an absent key
simply yields no resolution. -/
theorem keySelection_fallback_split (data : List (String × String)) (refKey : String) :
    (mapGet data (if refKey == "" then "binding-response" else refKey) = none →
      resolverSelectedValue data refKey = none ∧
        resolverDecodeNamespace data refKey = none) ∧
    (mapGet data (if refKey == "" then "response" else refKey) = none →
      ∀ k0 v0 drest, data = (k0, v0) :: drest →
        copySelectedValue data refKey = if v0 == "" then none else some v0) := by
  constructor
  · intro hget
    have hsel : resolverSelectedValue data refKey = none := by
      unfold resolverSelectedValue
      dsimp only []
      rw [hget]
    refine ⟨hsel, ?hdec⟩
    unfold resolverDecodeNamespace
    rw [hsel]
  · intro hget k0 v0 drest hdata
    unfold copySelectedValue
    dsimp only []
    rw [hget]
    subst hdata
    simp

/-- Witness for the amended C3 statement: with data `[("x","y")]` and no
ref key, the resolver selects nothing while the copy path falls back to
the first value `"y"`. -/
theorem keySelection_fallback_split_witness :
    (resolverSelectedValue [("x", "y")] "" = none ∧
      resolverDecodeNamespace [("x", "y")] "" = none) ∧
    copySelectedValue [("x", "y")] "" = some "y" := by
  refine ⟨(keySelection_fallback_split [("x", "y")] "").1 rfl, ?copy⟩
  have h := (keySelection_fallback_split [("x", "y")] "").2 rfl "x" "y" [] rfl
  simpa using h

/-- Claim C4: a selected artifact value whose outer base64 decode fails
never escapes as an exception: the resolver records no namespace, and
both content-producing paths (binding-details dialog and
copy-binding-file) return the raw value unchanged as the content. -/
theorem decode_malformed_degrades (enc : String) (hne : enc ≠ "")
    (hfail : atobLC enc.toList = none) :
    decodeValueNamespace enc.toList = none ∧
    (∀ data refKey, mapGet data (if refKey == "" then "response" else refKey) = some enc →
      detailsContent data refKey = some enc) ∧
    (∀ data refKey, copySelectedValue data refKey = some enc →
      copyDecodedContent data refKey = some enc) := by
  refine ⟨?resolver, ?details, ?copy⟩
  case resolver =>
    unfold decodeValueNamespace
    rw [hfail]
  case details =>
    intro data refKey hget
    unfold detailsContent
    dsimp only []
    rw [hget]
    simp only [hne]
    simp [hne]
    rw [show atobLC enc.data = none from hfail]
  case copy =>
    intro data refKey hsel
    unfold copyDecodedContent
    rw [hsel]
    simp
    rw [show atobLC enc.data = none from hfail]

/-- Witness for C4 at the concrete malformed value `"%%%"`. -/
theorem decode_malformed_degrades_witness :
    decodeValueNamespace ("%%%" : String).toList = none ∧
    detailsContent [("response", "%%%")] "" = some "%%%" ∧
    copyDecodedContent [("response", "%%%")] "" = some "%%%" :=
  ⟨(decode_malformed_degrades "%%%" (by decide) (by decide)).1,
   (decode_malformed_degrades "%%%" (by decide) (by decide)).2.1
     [("response", "%%%")] "" rfl,
   (decode_malformed_degrades "%%%" (by decide) (by decide)).2.2
     [("response", "%%%")] "" rfl⟩


/-- Claim C8: round-trip. For every namespace token (non-empty, free of
whitespace, within `btoa`'s Latin-1 range), encoding `namespace: <token>`
with arbitrary surrounding whitespace into the nested synthetic artifact
(`btoa` of a JSON document whose `kubeconfig` field is `btoa` of the
text) and running the decode pipeline recovers exactly that token. -/
theorem decode_encode_roundTrip (token w1 w2 w3 : List Char)
    (htok : token ≠ []) (htokws : ∀ c ∈ token, isJsWs c = false)
    (htokb : ∀ c ∈ token, c.toNat < 256)
    (hw1 : ∀ c ∈ w1, isJsWs c = true) (hw1b : ∀ c ∈ w1, c.toNat < 256)
    (hw2 : ∀ c ∈ w2, isJsWs c = true) (hw2b : ∀ c ∈ w2, c.toNat < 256)
    (hw3 : ∀ c ∈ w3, isJsWs c = true) (hw3b : ∀ c ∈ w3, c.toNat < 256) :
    decodeValueNamespace
      (btoaLC (mkBindingDoc (btoaLC (w1 ++ namespaceNeedle ++ (w2 ++ token ++ w3))))) =
      some token :=
  decode_roundTrip_helper w1 w2 token w3 htok htokws htokb hw1 hw1b hw2 hw2b hw3 hw3b

/-- Witness for C8: `namespace: foo` recovers `foo`, and
`namespace: acme-ns` followed by a newline recovers `acme-ns`. -/
theorem decode_encode_roundTrip_witness :
    decodeValueNamespace
        (btoaLC (mkBindingDoc (btoaLC (([] : List Char) ++ namespaceNeedle ++
          ([' '] ++ "foo".toList ++ ([] : List Char)))))) = some "foo".toList ∧
    decodeValueNamespace
        (btoaLC (mkBindingDoc (btoaLC (([] : List Char) ++ namespaceNeedle ++
          ([' '] ++ "acme-ns".toList ++ ['\n']))))) = some "acme-ns".toList :=
  ⟨decode_encode_roundTrip "foo".toList [] [' '] [] (by decide) (by decide) (by decide)
      (by decide) (by decide) (by decide) (by decide) (by decide) (by decide),
   decode_encode_roundTrip "acme-ns".toList [] [' '] ['\n'] (by decide) (by decide)
      (by decide) (by decide) (by decide) (by decide) (by decide) (by decide) (by decide)⟩

end KubeBind
